import Mathlib

/-!
Verification of the CLTune search-strategy core against its specification.

The repository sources available are the two headers
`src/include/tuner/internal/searchers/annealing.h` (the `Annealing` class
declaration: constructor signature, member variables, the constant
`kMaxAlreadyVisitedStates`, and the declarations of `GetConfiguration`,
`CalculateNextIndex`, `NumConfigurations`, `GetNeighboursOf` and
`AcceptanceProbability`) and `src/include/internal/clpp11.h` (a complete
inline C++11 wrapper over the OpenCL C API).

The bodies of the `Annealing` methods and the `Searcher` base class are not
part of the sources, so the algorithm below is modelled from the
specification (spec.md §4.8), while every fact that the header does fix
(the constructor's parameter list, the `std::random_device rd_` member, the
value of `kMaxAlreadyVisitedStates`) is taken from the header.  The OpenCL
wrapper functions are embedded directly from `clpp11.h`, with the results of
the external OpenCL calls supplied by an explicit oracle.
-/

namespace CLTune

/-- A configuration (`KernelInfo::Configuration`): the ordered list of
(parameter name, value) settings of one point of the search space. -/
abbrev Configuration := List (String × Nat)

/-- Modelled from the spec (§3, §4.8): the number of parameters in which two
configurations differ, the settings being aligned positionally (the space
enumerator emits every configuration over the same declaration-ordered
parameter list). -/
def configDiffCount : Configuration → Configuration → Nat
  | [], bs => bs.length
  | _ :: as, [] => as.length + 1
  | a :: as, b :: bs => (if a = b then 0 else 1) + configDiffCount as bs

/-- Modelled from the spec (§4.8 Neighbourhood): `Annealing::GetNeighboursOf`
is declared at annealing.h:62-63 but its body is not in the sources.  The
neighbours of a reference index are all indices of the space whose
configuration differs from the reference configuration in exactly one
parameter. -/
def GetNeighboursOf (space : List Configuration) (reference_id : Nat) : List Nat :=
  (List.range space.length).filter
    (fun i => configDiffCount (space.getD i []) (space.getD reference_id []) == 1)

/-- Maximum number of successive visits to already visited states, from
annealing.h:45 (`static constexpr auto kMaxAlreadyVisitedStates = 10`). -/
def kMaxAlreadyVisitedStates : Nat := 10

/-- Modelled from the spec (§5 shared-resource policy, §4.8 tie-breaks): the
searcher owns a single PRNG (`generator_`, a `std::default_random_engine`,
annealing.h:82); modelled as the minstd linear congruential step. -/
def lcgNext (g : Nat) : Nat := (16807 * g) % 2147483647

/-- Modelled from the spec: a draw of `probability_distribution_`
(annealing.h:85, a `uniform_real_distribution` over [0,1)) obtained from a
generator state. -/
def probOf (g : Nat) : ℚ := (g : ℚ) / 2147483647

/-- The searcher state.  The four `size_t` members and the generator are the
members of class `Annealing` (annealing.h:76-82); `current_energy`,
`temperature`, `visited` and `finished` are modelled from the spec (§3
Searcher state and §4.8 State), since the `Searcher` base class holding the
shared history is not among the sources. -/
structure AnnealingState where
  current_state : Nat
  neighbour_state : Nat
  current_energy : Option ℚ
  temperature : ℚ
  visited : List Nat
  num_visited_states : Nat
  num_already_visisted_states : Nat
  finished : Bool
  generator : Nat
deriving DecidableEq

/-- Modelled from the spec (§4.8 Initialization) and the header: the
constructor `Annealing::Annealing(configurations, fraction, max_temperature)`
(annealing.h:48-49) takes no seed; its PRNG is seeded from a
`std::random_device` draw (member `rd_`, annealing.h:83), which is the
explicit `rdDraw` argument here.  The initial current state is drawn
uniformly from the `N` configurations; the temperature starts at
`max_temperature`; the energy is unknown until the first report; the visited
history starts with the initial state. -/
def initAnnealing (N : Nat) (max_temperature : ℚ) (rdDraw : Nat) : AnnealingState :=
  let g := lcgNext rdDraw
  { current_state := g % N
    neighbour_state := g % N
    current_energy := none
    temperature := max_temperature
    visited := [g % N]
    num_visited_states := 1
    num_already_visisted_states := 0
    finished := false
    generator := g }

/-- Modelled from the spec (§4.8 step 3): the small positive floor under
which the linear cooling schedule never lets the temperature drop. -/
def annealEpsilon : ℚ := 1 / 1000000000

/-- Modelled from the spec (§4.8 step 3): one linear cooling step
`T ← T · (1 − 1/budget())`, clamped at `annealEpsilon` from below. -/
def coolStep (budget : Nat) (T : ℚ) : ℚ :=
  if T * (1 - 1 / (budget : ℚ)) ≤ annealEpsilon then annealEpsilon
  else T * (1 - 1 / (budget : ℚ))

/-- Modelled from the spec (§4.8 step 4): draw neighbours from the single
PRNG until an unvisited one is found; each draw of an already visited
neighbour advances the already-visited counter, and the fuel (the distance
left to `kMaxAlreadyVisitedStates`) bounds the redraws.  Returns the chosen
neighbour, the new generator state and the number of wasted draws, or `none`
when the counter would reach the bound. -/
def pickUnvisited (neigh visited : List Nat) : Nat → Nat → Nat → Option (Nat × Nat × Nat)
  | 0, _, _ => none
  | fuel + 1, g, w =>
    let g2 := lcgNext g
    let n := neigh.getD (g2 % neigh.length) 0
    if n ∈ visited then pickUnvisited neigh visited fuel g2 (w + 1)
    else some (n, g2, w)

/-- Modelled from the spec (§4.8 steps 4-5): the common tail of a step once
the post-acceptance current state `c2`, energy `Ec2`, cooled temperature `T2`
and already-visited counter `s1` are known.  On a successful pick the chosen
neighbour is recorded as visited and emitted next; if the redraws exhaust,
the counter reaches `kMaxAlreadyVisitedStates` and the searcher terminates
gracefully. -/
def afterPick (σ : AnnealingState) (c2 : Nat) (Ec2 : ℚ) (T2 : ℚ) (s1 : Nat) :
    Option (Nat × Nat × Nat) → AnnealingState
  | none =>
    { σ with current_state := c2, current_energy := some Ec2, temperature := T2,
             num_already_visisted_states := kMaxAlreadyVisitedStates, finished := true }
  | some (n, g2, w) =>
    { current_state := c2
      neighbour_state := n
      current_energy := some Ec2
      temperature := T2
      visited := n :: σ.visited
      num_visited_states := σ.num_visited_states + 1
      num_already_visisted_states := s1 + w
      finished := false
      generator := g2 }

/-- Modelled from the spec (§4.8 steps 3-5): the common core of a step once
the post-acceptance current state `c2`, its energy `Ec2`, the already-visited
counter `s1` and the generator state `g1` are known: cool the temperature,
compute the neighbourhood of `c2`, terminate if it is empty, and otherwise
pick the next unvisited neighbour from it. -/
def stepCore (space : List Configuration) (budget : Nat) (σ : AnnealingState)
    (c2 : Nat) (Ec2 : ℚ) (s1 : Nat) (g1 : Nat) : AnnealingState :=
  let T2 := coolStep budget σ.temperature
  let neigh := GetNeighboursOf space c2
  if neigh.isEmpty then
    { σ with current_state := c2, current_energy := some Ec2, temperature := T2,
             num_already_visisted_states := s1, generator := g1, finished := true }
  else
    afterPick σ c2 Ec2 T2 s1
      (pickUnvisited neigh σ.visited (kMaxAlreadyVisitedStates - s1) g1 0)

/-- Modelled from the spec (§4.8 step 1): the report for the initial state
records its energy and picks a fresh neighbour of the current state; an empty
neighbourhood terminates the searcher. -/
def stepFirst (space : List Configuration) (budget : Nat) (σ : AnnealingState)
    (E : ℚ) : AnnealingState :=
  stepCore space budget σ σ.current_state E σ.num_already_visisted_states σ.generator

/-- Modelled from the spec (§4.8 steps 2-5): a report for a neighbour either
accepts it (new current state, energy and a reset counter) or rejects it,
then cools the temperature and picks the next unvisited neighbour of the
resulting current state. -/
def stepMain (space : List Configuration) (budget : Nat) (σ : AnnealingState)
    (E Ec : ℚ) (accept : Bool) : AnnealingState :=
  stepCore space budget σ
    (if accept then σ.neighbour_state else σ.current_state)
    (if accept then E else Ec)
    (if accept then 0 else σ.num_already_visisted_states)
    (lcgNext σ.generator)

/-- Modelled from the spec (§4.8 step 2): `Annealing::AcceptanceProbability`
is declared at annealing.h:67-69 but its body is not in the sources.  The
acceptance probability is 1 when the energy difference is negative and
`exp(−ΔE/T)` otherwise. -/
noncomputable def AcceptanceProbability (current_energy neighbour_energy temperature : ℝ) : ℝ :=
  if neighbour_energy - current_energy < 0 then 1
  else Real.exp (-(neighbour_energy - current_energy) / temperature)

open scoped Classical in
/-- Modelled from the spec (§4.8 step 2): the Metropolis decision, comparing
one uniform draw from the PRNG against the acceptance probability. -/
noncomputable def acceptB (current_energy neighbour_energy temperature p : ℚ) : Bool :=
  if ((p : ℝ) <
      AcceptanceProbability (current_energy : ℝ) (neighbour_energy : ℝ) (temperature : ℝ)) then
    true
  else false

/-- Modelled from the spec (§4.8 Step protocol): `Annealing::CalculateNextIndex`
is declared at annealing.h:54-55 but its body is not in the sources.  `E` is
the cost just reported for the configuration emitted last; a finished
searcher no longer changes state. -/
noncomputable def CalculateNextIndex (space : List Configuration) (budget : Nat)
    (σ : AnnealingState) (E : ℚ) : AnnealingState :=
  if σ.finished then σ else
  match σ.current_energy with
  | none => stepFirst space budget σ E
  | some Ec =>
    stepMain space budget σ E Ec (acceptB Ec E σ.temperature (probOf (lcgNext σ.generator)))

/-- Modelled from the spec (§4.8 Budget): `Annealing::NumConfigurations` is
declared at annealing.h:57-58 but its body is not in the sources.  The budget
is the target number of evaluations, the ceiling of the fraction times the
size of the space. -/
def NumConfigurations (space : List Configuration) (fraction : ℚ) : Nat :=
  (Int.ceil (fraction * (space.length : ℚ))).toNat

/-- Modelled from the spec (§4.5, §4.8 Budget): `done()` holds when the
searcher has terminated (stuck rule or empty neighbourhood) or the budget is
exhausted by the emissions so far. -/
def isDone (budget : Nat) (σ : AnnealingState) : Bool :=
  σ.finished || decide (budget ≤ σ.num_visited_states)

/-- The configuration the searcher hands to the driver for a state:
`Annealing::GetConfiguration` is declared at annealing.h:51-52 but its body
is not in the sources; modelled from the spec (§4.8 Step protocol): the
pending candidate `neighbour_state` (equal to the current state before the
first report) indexes the space. -/
def GetConfiguration (space : List Configuration) (σ : AnnealingState) : Configuration :=
  space.getD σ.neighbour_state []

/-- Modelled from the spec (§4.5 ordering contract): the indices emitted
after a state, one per reported cost, stopping as soon as `done()` holds. -/
noncomputable def runAnnealing (space : List Configuration) (budget : Nat) :
    AnnealingState → List ℚ → List Nat
  | _, [] => []
  | σ, E :: Es =>
    if isDone budget σ then [] else
    if isDone budget (CalculateNextIndex space budget σ E) then [] else
    (CalculateNextIndex space budget σ E).neighbour_state ::
      runAnnealing space budget (CalculateNextIndex space budget σ E) Es

/-- The successive states a run passes through, one per reported cost,
stopping once `done()` holds at the start of a step. -/
noncomputable def annealTrace (space : List Configuration) (budget : Nat) :
    AnnealingState → List ℚ → List AnnealingState
  | _, [] => []
  | σ, E :: Es =>
    if isDone budget σ then [] else
    CalculateNextIndex space budget σ E ::
      annealTrace space budget (CalculateNextIndex space budget σ E) Es

/-- The full sequence of emitted indices of a run of the annealing searcher:
the initial uniformly drawn index followed by the indices produced while
reports keep arriving. -/
noncomputable def emittedSeq (space : List Configuration) (fraction : ℚ) (max_temperature : ℚ)
    (rdDraw : Nat) (costs : List ℚ) : List Nat :=
  let σ0 := initAnnealing space.length max_temperature rdDraw
  σ0.neighbour_state :: runAnnealing space (NumConfigurations space fraction) σ0 costs

/-- A two-point space whose configurations differ in their single parameter. -/
def spaceTwo : List Configuration := [[("x", 0)], [("x", 1)]]

/-- A four-point space whose neighbourhood graph is two disjoint two-node
islands: indices 0-1 differ only in `y`, indices 2-3 differ only in `y`, and
any cross pair differs in both parameters. -/
def spaceIsland : List Configuration :=
  [[("x", 0), ("y", 0)], [("x", 0), ("y", 1)], [("x", 1), ("y", 2)], [("x", 1), ("y", 3)]]

/-- A one-point space: its only configuration has no neighbours. -/
def spaceSolo : List Configuration := [[("x", 0)]]

/-- A searcher state over `spaceTwo` that has already visited both indices:
any further neighbour draw is forced to repeat. -/
def stuckStateTwo : AnnealingState :=
  { current_state := 0
    neighbour_state := 1
    current_energy := some 1
    temperature := 1
    visited := [1, 0]
    num_visited_states := 2
    num_already_visisted_states := 0
    finished := false
    generator := 0 }

/-- The state of the island-space run after its first report: the searcher
started at index 3 (drawn from device draw 1), recorded cost 2 for it and
emitted its only neighbour, index 2. -/
noncomputable def islandState1 : AnnealingState :=
  CalculateNextIndex spaceIsland 4 (initAnnealing spaceIsland.length 1 1) 2

/-- The state of the island-space run after its second report: cost 1 for
index 2 is accepted, but every neighbour of index 2 is already visited, so
the redraws exhaust and the stuck rule trips. -/
noncomputable def islandState2 : AnnealingState :=
  CalculateNextIndex spaceIsland 4 islandState1 1

/- ----------------------------------------------------------------------
OpenCL wrapper layer, embedded from src/include/internal/clpp11.h.  The
results of the external OpenCL C API calls are supplied by an oracle. -/

/-- The results the OpenCL runtime returns to the wrapper's queries:
`clGetDeviceInfo` keyed by device id and info code, and
`clGetKernelWorkGroupInfo` keyed by kernel id, device id and info code. -/
structure OpenCLOracle where
  deviceInfo : Nat → Nat → Nat
  kernelWorkGroupInfo : Nat → Nat → Nat → Nat

/-- The OpenCL info code CL_DEVICE_LOCAL_MEM_SIZE (0x1023, from CL/cl.h). -/
def CL_DEVICE_LOCAL_MEM_SIZE : Nat := 4131

/-- The OpenCL info code CL_KERNEL_LOCAL_MEM_SIZE (0x11B2, from CL/cl.h). -/
def CL_KERNEL_LOCAL_MEM_SIZE : Nat := 4530

/-- The OpenCL property bit CL_QUEUE_PROFILING_ENABLE (1 << 1, from CL/cl.h). -/
def CL_QUEUE_PROFILING_ENABLE : Nat := 2

/-- C++11 version of cl_device_id (class `Device`, clpp11.h:97-142): a
wrapped device handle. -/
structure Device where
  id : Nat

/-- `Device::LocalMemSize` (clpp11.h:116-118): queries
CL_DEVICE_LOCAL_MEM_SIZE through `GetInfo<cl_ulong>`. -/
def Device.LocalMemSize (cl : OpenCLOracle) (d : Device) : Nat :=
  cl.deviceInfo d.id CL_DEVICE_LOCAL_MEM_SIZE

/-- C++11 version of cl_kernel (class `Kernel`, clpp11.h:239-283): a wrapped
kernel handle. -/
structure Kernel where
  id : Nat

/-- `Kernel::LocalMemUsage` (clpp11.h:265-271): queries
CL_KERNEL_LOCAL_MEM_SIZE for a device through `clGetKernelWorkGroupInfo`. -/
def Kernel.LocalMemUsage (cl : OpenCLOracle) (k : Kernel) (device : Nat) : Nat :=
  cl.kernelWorkGroupInfo k.id device CL_KERNEL_LOCAL_MEM_SIZE

/-- `Kernel::ValidLocalMemory` (clpp11.h:274-276): the kernel's local-memory
usage on the device, compared against the device's local-memory size. -/
def Kernel.ValidLocalMemory (cl : OpenCLOracle) (k : Kernel) (d : Device) : Bool :=
  decide (Kernel.LocalMemUsage cl k d.id ≤ Device.LocalMemSize cl d)

/-- C++11 version of cl_command_queue (class `CommandQueue`, clpp11.h:288-327)
as produced by `clCreateCommandQueue`: the context, the device, and the
properties bitfield passed at creation. -/
structure CommandQueue where
  context : Nat
  device : Nat
  properties : Nat

/-- The `CommandQueue(context, device)` constructor (clpp11.h:295-296): it
always passes CL_QUEUE_PROFILING_ENABLE as the properties argument of
`clCreateCommandQueue`. -/
def CommandQueue.create (context device : Nat) : CommandQueue :=
  { context := context, device := device, properties := CL_QUEUE_PROFILING_ENABLE }

/-- C++11 version of cl_event (class `Event`, clpp11.h:50-77): an event
recorded on some queue, remembering the properties of that queue and the two
device timestamps of the profiled command. -/
structure Event where
  queueProperties : Nat
  startTime : Nat
  endTime : Nat

/-- OpenCL semantics of `clGetEventProfilingInfo`: the profiling counters of
an event exist exactly when the queue the event was recorded on was created
with CL_QUEUE_PROFILING_ENABLE set. -/
def Event.profilingAvailable (e : Event) : Bool :=
  decide (e.queueProperties &&& CL_QUEUE_PROFILING_ENABLE ≠ 0)

/-- `Event::GetProfilingStart` (clpp11.h:54-60): reads
CL_PROFILING_COMMAND_START into a zero-initialised result; when profiling
info is unavailable the call writes nothing and the zero remains. -/
def Event.GetProfilingStart (e : Event) : Nat :=
  if e.profilingAvailable then e.startTime else 0

/-- `Event::GetProfilingEnd` (clpp11.h:61-67): reads
CL_PROFILING_COMMAND_END into a zero-initialised result; when profiling info
is unavailable the call writes nothing and the zero remains. -/
def Event.GetProfilingEnd (e : Event) : Nat :=
  if e.profilingAvailable then e.endTime else 0

/- ----------------------------------------------------------------------
Helper lemmas. -/

/-- Membership in a neighbourhood list unfolded. -/
lemma mem_GetNeighboursOf {space : List Configuration} {ref i : Nat} :
    i ∈ GetNeighboursOf space ref ↔
      i < space.length ∧ configDiffCount (space.getD i []) (space.getD ref []) = 1 := by
  simp [GetNeighboursOf, List.mem_filter, List.mem_range]

/-- The clamped cooling step is the maximum of the epsilon floor and the
linear decay. -/
lemma coolStep_eq_max (budget : Nat) (T : ℚ) :
    coolStep budget T = max annealEpsilon (T * (1 - 1 / (budget : ℚ))) := by
  rw [coolStep]
  rcases le_or_lt (T * (1 - 1 / (budget : ℚ))) annealEpsilon with h | h
  · rw [if_pos h, max_eq_left h]
  · rw [if_neg (not_le.mpr h), max_eq_right h.le]

/-- A successful pick returns an unvisited member of the neighbourhood and
wastes fewer draws than the fuel allows. -/
lemma pickUnvisited_some_spec {neigh visited : List Nat} (hne : neigh ≠ []) :
    ∀ {fuel g w n g2 w2}, pickUnvisited neigh visited fuel g w = some (n, g2, w2) →
      n ∈ neigh ∧ n ∉ visited ∧ w2 < w + fuel := by
  intro fuel
  induction fuel with
  | zero => intro g w n g2 w2 h; simp [pickUnvisited] at h
  | succ fuel ih =>
    intro g w n g2 w2 h
    rw [pickUnvisited] at h
    by_cases hv : neigh.getD (lcgNext g % neigh.length) 0 ∈ visited
    · rw [if_pos hv] at h
      rcases ih h with ⟨h1, h2, h3⟩
      exact ⟨h1, h2, by omega⟩
    · rw [if_neg hv] at h
      rcases h with ⟨rfl, rfl, rfl⟩
      have hlen : 0 < neigh.length := List.length_pos.mpr hne
      have hidx : lcgNext g % neigh.length < neigh.length := Nat.mod_lt _ hlen
      refine ⟨?_, hv, by omega⟩
      rw [List.getD_eq_getElem _ _ hidx]
      exact List.getElem_mem hidx

/-- With fuel zero the pick fails. -/
lemma pickUnvisited_zero (neigh visited : List Nat) (g w : Nat) :
    pickUnvisited neigh visited 0 g w = none := rfl

/-- When every neighbour is already visited, every pick fails. -/
lemma pickUnvisited_all_visited {neigh visited : List Nat} (hne : neigh ≠ [])
    (hall : ∀ m ∈ neigh, m ∈ visited) :
    ∀ fuel g w, pickUnvisited neigh visited fuel g w = none := by
  intro fuel
  induction fuel with
  | zero => intro g w; rfl
  | succ fuel ih =>
    intro g w
    rw [pickUnvisited]
    have hlen : 0 < neigh.length := List.length_pos.mpr hne
    have hidx : lcgNext g % neigh.length < neigh.length := Nat.mod_lt _ hlen
    have hmem : neigh.getD (lcgNext g % neigh.length) 0 ∈ neigh := by
      rw [List.getD_eq_getElem _ _ hidx]; exact List.getElem_mem hidx
    rw [if_pos (hall _ hmem)]
    exact ih _ _

/-- The record produced by a successful pick. -/
lemma afterPick_some (σ : AnnealingState) (c2 : Nat) (Ec2 T2 : ℚ) (s1 n g2 w : Nat) :
    afterPick σ c2 Ec2 T2 s1 (some (n, g2, w)) =
      { current_state := c2
        neighbour_state := n
        current_energy := some Ec2
        temperature := T2
        visited := n :: σ.visited
        num_visited_states := σ.num_visited_states + 1
        num_already_visisted_states := s1 + w
        finished := false
        generator := g2 } := rfl

/-- The record produced by an exhausted pick. -/
lemma afterPick_none (σ : AnnealingState) (c2 : Nat) (Ec2 T2 : ℚ) (s1 : Nat) :
    afterPick σ c2 Ec2 T2 s1 none =
      { σ with current_state := c2, current_energy := some Ec2, temperature := T2,
               num_already_visisted_states := kMaxAlreadyVisitedStates, finished := true } := rfl

/-- `stepCore` unfolded to its branch structure. -/
lemma stepCore_eq (space : List Configuration) (budget : Nat) (σ : AnnealingState)
    (c2 : Nat) (Ec2 : ℚ) (s1 g1 : Nat) :
    stepCore space budget σ c2 Ec2 s1 g1 =
      if (GetNeighboursOf space c2).isEmpty then
        { σ with current_state := c2, current_energy := some Ec2,
                 temperature := coolStep budget σ.temperature,
                 num_already_visisted_states := s1, generator := g1, finished := true }
      else
        afterPick σ c2 Ec2 (coolStep budget σ.temperature) s1
          (pickUnvisited (GetNeighboursOf space c2) σ.visited
            (kMaxAlreadyVisitedStates - s1) g1 0) := rfl

/-- The temperature after any step core is one cooling step. -/
lemma stepCore_temperature (space : List Configuration) (budget : Nat) (σ : AnnealingState)
    (c2 : Nat) (Ec2 : ℚ) (s1 g1 : Nat) :
    (stepCore space budget σ c2 Ec2 s1 g1).temperature = coolStep budget σ.temperature := by
  rw [stepCore_eq]
  by_cases hemp : (GetNeighboursOf space c2).isEmpty
  · rw [if_pos hemp]
  · rw [if_neg hemp]
    rcases hres : pickUnvisited (GetNeighboursOf space c2) σ.visited
        (kMaxAlreadyVisitedStates - s1) g1 0 with _ | ⟨n, g2, w⟩
    · rw [afterPick_none]
    · rw [afterPick_some]

/-- A step core that does not finish made a successful pick: its emitted
neighbour is a fresh member of the neighbourhood of `c2`, the history grows
by it, the emission counter advances, and the already-visited counter stays
strictly under the bound. -/
lemma stepCore_not_finished (space : List Configuration) (budget : Nat) (σ : AnnealingState)
    (c2 : Nat) (Ec2 : ℚ) (s1 g1 : Nat)
    (h : (stepCore space budget σ c2 Ec2 s1 g1).finished = false) :
    (stepCore space budget σ c2 Ec2 s1 g1).neighbour_state ∈ GetNeighboursOf space c2 ∧
    (stepCore space budget σ c2 Ec2 s1 g1).neighbour_state ∉ σ.visited ∧
    (stepCore space budget σ c2 Ec2 s1 g1).visited =
      (stepCore space budget σ c2 Ec2 s1 g1).neighbour_state :: σ.visited ∧
    (stepCore space budget σ c2 Ec2 s1 g1).num_visited_states = σ.num_visited_states + 1 ∧
    (stepCore space budget σ c2 Ec2 s1 g1).num_already_visisted_states
      < kMaxAlreadyVisitedStates ∧
    (stepCore space budget σ c2 Ec2 s1 g1).current_state = c2 := by
  rw [stepCore_eq] at h ⊢
  by_cases hemp : (GetNeighboursOf space c2).isEmpty
  · rw [if_pos hemp] at h
    simp at h
  · rw [if_neg hemp] at h ⊢
    have hne : GetNeighboursOf space c2 ≠ [] := by
      intro hnil; rw [hnil] at hemp; simp at hemp
    rcases hres : pickUnvisited (GetNeighboursOf space c2) σ.visited
        (kMaxAlreadyVisitedStates - s1) g1 0 with _ | ⟨n, g2, w⟩
    · rw [hres, afterPick_none] at h
      simp at h
    · rw [hres] at h
      rw [afterPick_some] at h ⊢
      rcases pickUnvisited_some_spec hne hres with ⟨h1, h2, h3⟩
      have hfuel : kMaxAlreadyVisitedStates - s1 ≠ 0 := by
        intro h0
        rw [h0, pickUnvisited_zero] at hres
        exact Option.noConfusion hres
      refine ⟨h1, h2, rfl, rfl, ?_, rfl⟩
      show s1 + w < kMaxAlreadyVisitedStates
      omega

/-- A step core finishes exactly when its already-visited counter has hit the
bound or the neighbourhood of its new current state is empty. -/
lemma stepCore_finished_iff (space : List Configuration) (budget : Nat) (σ : AnnealingState)
    (c2 : Nat) (Ec2 : ℚ) (s1 g1 : Nat) :
    (stepCore space budget σ c2 Ec2 s1 g1).finished = true ↔
      kMaxAlreadyVisitedStates
          ≤ (stepCore space budget σ c2 Ec2 s1 g1).num_already_visisted_states ∨
      GetNeighboursOf space ((stepCore space budget σ c2 Ec2 s1 g1).current_state) = [] := by
  by_cases hfin : (stepCore space budget σ c2 Ec2 s1 g1).finished = true
  · simp only [hfin, true_iff]
    rw [stepCore_eq] at hfin ⊢
    by_cases hemp : (GetNeighboursOf space c2).isEmpty
    · rw [if_pos hemp] at hfin ⊢
      right
      simpa [List.isEmpty_iff] using hemp
    · rw [if_neg hemp] at hfin ⊢
      rcases hres : pickUnvisited (GetNeighboursOf space c2) σ.visited
          (kMaxAlreadyVisitedStates - s1) g1 0 with _ | ⟨n, g2, w⟩
      · rw [afterPick_none]
        left
        exact Nat.le_refl _
      · rw [hres, afterPick_some] at hfin
        simp at hfin
  · have hfalse : (stepCore space budget σ c2 Ec2 s1 g1).finished = false :=
      Bool.eq_false_iff.mpr hfin
    rcases stepCore_not_finished space budget σ c2 Ec2 s1 g1 hfalse with
      ⟨hmem, _, _, _, hlt, hcur⟩
    apply iff_of_false hfin
    rintro (hA | hB)
    · omega
    · rw [hcur] at hB
      rw [hB] at hmem
      exact absurd hmem (List.not_mem_nil _)

/-- The emitted candidate after a step core is either kept from before the
step or freshly drawn from the neighbourhood of the new current state. -/
lemma stepCore_neighbour_cases (space : List Configuration) (budget : Nat) (σ : AnnealingState)
    (c2 : Nat) (Ec2 : ℚ) (s1 g1 : Nat) :
    (stepCore space budget σ c2 Ec2 s1 g1).neighbour_state = σ.neighbour_state ∨
    (stepCore space budget σ c2 Ec2 s1 g1).neighbour_state ∈ GetNeighboursOf space c2 := by
  rw [stepCore_eq]
  by_cases hemp : (GetNeighboursOf space c2).isEmpty
  · rw [if_pos hemp]; left; rfl
  · rw [if_neg hemp]
    have hne : GetNeighboursOf space c2 ≠ [] := by
      intro hnil; rw [hnil] at hemp; simp at hemp
    rcases hres : pickUnvisited (GetNeighboursOf space c2) σ.visited
        (kMaxAlreadyVisitedStates - s1) g1 0 with _ | ⟨n, g2, w⟩
    · rw [afterPick_none]; left; rfl
    · rw [afterPick_some]
      right
      exact (pickUnvisited_some_spec hne hres).1

/-- With every neighbour of `c2` already visited and the neighbourhood
nonempty, the step core trips the stuck rule: the counter lands exactly on
the bound and the searcher finishes. -/
lemma stepCore_stuck (space : List Configuration) (budget : Nat) (σ : AnnealingState)
    (c2 : Nat) (Ec2 : ℚ) (s1 g1 : Nat)
    (hne : GetNeighboursOf space c2 ≠ [])
    (hall : ∀ m ∈ GetNeighboursOf space c2, m ∈ σ.visited) :
    (stepCore space budget σ c2 Ec2 s1 g1).finished = true ∧
    (stepCore space budget σ c2 Ec2 s1 g1).num_already_visisted_states
      = kMaxAlreadyVisitedStates := by
  rw [stepCore_eq]
  have hemp : (GetNeighboursOf space c2).isEmpty = false := by
    simp [List.isEmpty_iff, hne]
  rw [hemp]
  rw [if_neg (by simp)]
  rw [pickUnvisited_all_visited hne hall _ _ _, afterPick_none]
  exact ⟨rfl, rfl⟩

/-- `CalculateNextIndex` on a live state whose energy is not yet known. -/
lemma calc_first (space : List Configuration) (budget : Nat) (σ : AnnealingState) (E : ℚ)
    (h0 : σ.finished = false) (hE : σ.current_energy = none) :
    CalculateNextIndex space budget σ E = stepFirst space budget σ E := by
  rw [CalculateNextIndex, if_neg (by simp [h0]), hE]

/-- `CalculateNextIndex` on a live state with a known current energy. -/
lemma calc_main (space : List Configuration) (budget : Nat) (σ : AnnealingState) (E Ec : ℚ)
    (h0 : σ.finished = false) (hE : σ.current_energy = some Ec) :
    CalculateNextIndex space budget σ E =
      stepMain space budget σ E Ec
        (acceptB Ec E σ.temperature (probOf (lcgNext σ.generator))) := by
  rw [CalculateNextIndex, if_neg (by simp [h0]), hE]

/-- Any step of a live state is a step core for some parameters. -/
lemma calc_is_stepCore (space : List Configuration) (budget : Nat) (σ : AnnealingState) (E : ℚ)
    (h0 : σ.finished = false) :
    ∃ c2 Ec2 s1 g1, (c2 = σ.current_state ∨ c2 = σ.neighbour_state) ∧
      CalculateNextIndex space budget σ E = stepCore space budget σ c2 Ec2 s1 g1 := by
  rcases hE : σ.current_energy with _ | Ec
  · exact ⟨σ.current_state, E, σ.num_already_visisted_states, σ.generator,
      Or.inl rfl, calc_first space budget σ E h0 hE⟩
  · rw [calc_main space budget σ E Ec h0 hE, stepMain]
    by_cases hb : acceptB Ec E σ.temperature (probOf (lcgNext σ.generator)) = true
    · rw [hb]
      exact ⟨σ.neighbour_state, E, 0, lcgNext σ.generator, Or.inr rfl, by simp⟩
    · rw [Bool.eq_false_iff.mpr hb]
      exact ⟨σ.current_state, Ec, σ.num_already_visisted_states, lcgNext σ.generator,
        Or.inl rfl, by simp⟩

/-- An undone searcher is neither finished nor out of budget. -/
lemma isDone_false {budget : Nat} {σ : AnnealingState} (h : isDone budget σ = false) :
    σ.finished = false ∧ ¬budget ≤ σ.num_visited_states := by
  rw [isDone] at h
  rcases Bool.or_eq_false_iff.mp h with ⟨h1, h2⟩
  exact ⟨h1, by simpa using h2⟩

/-- A finished searcher is done and emits nothing more. -/
lemma run_of_finished (space : List Configuration) (budget : Nat) (σ : AnnealingState)
    (h : σ.finished = true) :
    isDone budget σ = true ∧ ∀ cs, runAnnealing space budget σ cs = [] := by
  refine ⟨by simp [isDone, h], ?_⟩
  intro cs
  cases cs with
  | nil => rfl
  | cons E Es => simp [runAnnealing, isDone, h]

/-- A live step that does not finish emits a fresh in-range neighbour and
keeps the already-visited counter under the bound. -/
lemma calc_success (space : List Configuration) (budget : Nat) (σ : AnnealingState) (E : ℚ)
    (h0 : σ.finished = false)
    (h1 : (CalculateNextIndex space budget σ E).finished = false) :
    (CalculateNextIndex space budget σ E).neighbour_state ∉ σ.visited ∧
    (CalculateNextIndex space budget σ E).visited =
      (CalculateNextIndex space budget σ E).neighbour_state :: σ.visited ∧
    (CalculateNextIndex space budget σ E).neighbour_state < space.length ∧
    (CalculateNextIndex space budget σ E).num_visited_states = σ.num_visited_states + 1 ∧
    (CalculateNextIndex space budget σ E).num_already_visisted_states
      < kMaxAlreadyVisitedStates := by
  obtain ⟨c2, Ec2, s1, g1, _, heq⟩ := calc_is_stepCore space budget σ E h0
  rw [heq] at h1 ⊢
  rcases stepCore_not_finished space budget σ c2 Ec2 s1 g1 h1 with
    ⟨hmem, hfresh, hvis, hnum, hlt, _⟩
  exact ⟨hfresh, hvis, (mem_GetNeighboursOf.mp hmem).1, hnum, hlt⟩

/-- A live step finishes exactly when the stuck counter has hit the bound or
the neighbourhood of the new current state is empty. -/
lemma calc_finished_iff (space : List Configuration) (budget : Nat) (σ : AnnealingState) (E : ℚ)
    (h0 : σ.finished = false) :
    (CalculateNextIndex space budget σ E).finished = true ↔
      kMaxAlreadyVisitedStates
          ≤ (CalculateNextIndex space budget σ E).num_already_visisted_states ∨
      GetNeighboursOf space ((CalculateNextIndex space budget σ E).current_state) = [] := by
  obtain ⟨c2, Ec2, s1, g1, _, heq⟩ := calc_is_stepCore space budget σ E h0
  rw [heq]
  exact stepCore_finished_iff _ _ _ _ _ _ _

/-- A step preserves the invariant that a stuck counter at the bound forces
the finished flag. -/
lemma calc_preserves_stuckOK (space : List Configuration) (budget : Nat) (σ : AnnealingState)
    (E : ℚ)
    (h : kMaxAlreadyVisitedStates ≤ σ.num_already_visisted_states → σ.finished = true) :
    kMaxAlreadyVisitedStates
        ≤ (CalculateNextIndex space budget σ E).num_already_visisted_states →
      (CalculateNextIndex space budget σ E).finished = true := by
  by_cases h0 : σ.finished = true
  · rw [CalculateNextIndex, if_pos h0]
    exact h
  · have h0f : σ.finished = false := Bool.eq_false_iff.mpr h0
    intro hge
    by_cases h1 : (CalculateNextIndex space budget σ E).finished = true
    · exact h1
    · have h1f := Bool.eq_false_iff.mpr h1
      rcases calc_success space budget σ E h0f h1f with ⟨_, _, _, _, hlt⟩
      omega

/-- A step keeps the emitted candidate inside the index range of the space. -/
lemma calc_neighbour_lt (space : List Configuration) (budget : Nat) (σ : AnnealingState) (E : ℚ)
    (h : σ.neighbour_state < space.length) :
    (CalculateNextIndex space budget σ E).neighbour_state < space.length := by
  by_cases h0 : σ.finished = true
  · rw [CalculateNextIndex, if_pos h0]
    exact h
  · obtain ⟨c2, Ec2, s1, g1, _, heq⟩ :=
      calc_is_stepCore space budget σ E (Bool.eq_false_iff.mpr h0)
    rw [heq]
    rcases stepCore_neighbour_cases space budget σ c2 Ec2 s1 g1 with hkeep | hmem
    · rw [hkeep]; exact h
    · exact (mem_GetNeighboursOf.mp hmem).1

/-- A live step whose both candidate current states have nonempty yet fully
visited neighbourhoods trips the stuck rule. -/
lemma calc_stuck (space : List Configuration) (budget : Nat) (σ : AnnealingState) (E : ℚ)
    (h0 : σ.finished = false)
    (hne1 : GetNeighboursOf space σ.current_state ≠ [])
    (hne2 : GetNeighboursOf space σ.neighbour_state ≠ [])
    (hall1 : ∀ m ∈ GetNeighboursOf space σ.current_state, m ∈ σ.visited)
    (hall2 : ∀ m ∈ GetNeighboursOf space σ.neighbour_state, m ∈ σ.visited) :
    (CalculateNextIndex space budget σ E).finished = true ∧
    (CalculateNextIndex space budget σ E).num_already_visisted_states
      = kMaxAlreadyVisitedStates := by
  obtain ⟨c2, Ec2, s1, g1, hc2, heq⟩ := calc_is_stepCore space budget σ E h0
  rw [heq]
  rcases hc2 with rfl | rfl
  · exact stepCore_stuck space budget σ _ Ec2 s1 g1 hne1 hall1
  · exact stepCore_stuck space budget σ _ Ec2 s1 g1 hne2 hall2

/-- A live step cools the temperature by exactly one linear step. -/
lemma calc_temperature (space : List Configuration) (budget : Nat) (σ : AnnealingState) (E : ℚ)
    (h0 : σ.finished = false) :
    (CalculateNextIndex space budget σ E).temperature = coolStep budget σ.temperature := by
  obtain ⟨c2, Ec2, s1, g1, _, heq⟩ := calc_is_stepCore space budget σ E h0
  rw [heq]
  exact stepCore_temperature _ _ _ _ _ _ _

/-- Every state along a trace keeps the invariant that a stuck counter at the
bound forces the finished flag. -/
lemma trace_stuckOK (space : List Configuration) (budget : Nat) :
    ∀ (costs : List ℚ) (σ : AnnealingState),
      (kMaxAlreadyVisitedStates ≤ σ.num_already_visisted_states → σ.finished = true) →
      ∀ τ ∈ annealTrace space budget σ costs,
        kMaxAlreadyVisitedStates ≤ τ.num_already_visisted_states → τ.finished = true := by
  intro costs
  induction costs with
  | nil => intro σ h τ hτ; simp [annealTrace] at hτ
  | cons E Es ih =>
    intro σ h τ hτ
    simp only [annealTrace] at hτ
    by_cases hd : isDone budget σ = true
    · rw [if_pos hd] at hτ
      simp at hτ
    · rw [if_neg hd] at hτ
      rcases List.mem_cons.mp hτ with rfl | hmem
      · exact calc_preserves_stuckOK space budget σ E h
      · exact ih _ (calc_preserves_stuckOK space budget σ E h) _ hmem

/-- Every state along a trace keeps its emitted candidate inside the index
range of the space. -/
lemma trace_neighbour_lt (space : List Configuration) (budget : Nat) :
    ∀ (costs : List ℚ) (σ : AnnealingState), σ.neighbour_state < space.length →
      ∀ τ ∈ annealTrace space budget σ costs, τ.neighbour_state < space.length := by
  intro costs
  induction costs with
  | nil => intro σ h τ hτ; simp [annealTrace] at hτ
  | cons E Es ih =>
    intro σ h τ hτ
    simp only [annealTrace] at hτ
    by_cases hd : isDone budget σ = true
    · rw [if_pos hd] at hτ
      simp at hτ
    · rw [if_neg hd] at hτ
      rcases List.mem_cons.mp hτ with rfl | hmem
      · exact calc_neighbour_lt space budget σ E h
      · exact ih _ (calc_neighbour_lt space budget σ E h) _ hmem

/-- The indices a run emits avoid the starting history and never repeat. -/
lemma run_nodup (space : List Configuration) (budget : Nat) :
    ∀ (costs : List ℚ) (σ : AnnealingState),
      (∀ x ∈ runAnnealing space budget σ costs, x ∉ σ.visited) ∧
      (runAnnealing space budget σ costs).Nodup := by
  intro costs
  induction costs with
  | nil => intro σ; simp [runAnnealing]
  | cons E Es ih =>
    intro σ
    simp only [runAnnealing]
    by_cases hd : isDone budget σ = true
    · rw [if_pos hd]; simp
    · rw [if_neg hd]
      by_cases hd2 : isDone budget (CalculateNextIndex space budget σ E) = true
      · rw [if_pos hd2]; simp
      · rw [if_neg hd2]
        have h0 : σ.finished = false :=
          (isDone_false (show isDone budget σ = false from Bool.eq_false_iff.mpr hd)).1
        have h1 : (CalculateNextIndex space budget σ E).finished = false :=
          (isDone_false (show isDone budget (CalculateNextIndex space budget σ E) = false from
            Bool.eq_false_iff.mpr hd2)).1
        rcases calc_success space budget σ E h0 h1 with ⟨hfresh, hvis, _, _, _⟩
        rcases ih (CalculateNextIndex space budget σ E) with ⟨havoid, hnodup⟩
        constructor
        · intro x hx
          rcases List.mem_cons.mp hx with rfl | hmem
          · exact hfresh
          · have hx2 := havoid x hmem
            rw [hvis] at hx2
            intro hcontra
            exact hx2 (List.mem_cons_of_mem _ hcontra)
        · refine List.Nodup.cons ?_ hnodup
          intro hcontra
          have hx2 := havoid _ hcontra
          rw [hvis] at hx2
          exact hx2 (List.mem_cons_self _ _)

/-- Every index a run emits lies inside the index range of the space. -/
lemma run_mem_lt (space : List Configuration) (budget : Nat) :
    ∀ (costs : List ℚ) (σ : AnnealingState),
      ∀ x ∈ runAnnealing space budget σ costs, x < space.length := by
  intro costs
  induction costs with
  | nil => intro σ x hx; simp [runAnnealing] at hx
  | cons E Es ih =>
    intro σ x hx
    simp only [runAnnealing] at hx
    by_cases hd : isDone budget σ = true
    · rw [if_pos hd] at hx
      simp at hx
    · rw [if_neg hd] at hx
      by_cases hd2 : isDone budget (CalculateNextIndex space budget σ E) = true
      · rw [if_pos hd2] at hx
        simp at hx
      · rw [if_neg hd2] at hx
        have h0 : σ.finished = false :=
          (isDone_false (show isDone budget σ = false from Bool.eq_false_iff.mpr hd)).1
        have h1 : (CalculateNextIndex space budget σ E).finished = false :=
          (isDone_false (show isDone budget (CalculateNextIndex space budget σ E) = false from
            Bool.eq_false_iff.mpr hd2)).1
        rcases List.mem_cons.mp hx with rfl | hmem
        · exact (calc_success space budget σ E h0 h1).2.2.1
        · exact ih _ _ hmem

/- ----------------------------------------------------------------------
Claim theorems. -/

/-- Claim C1, counterexample: the emitted index sequence is not determined
by the strategy options alone.  Both runs below use the identical space and
identical constructor arguments (fraction 1, max temperature 1) — the
constructor accepts nothing else (annealing.h:48-49, no seed parameter) —
yet they emit different sequences, because the PRNG is seeded from the
`std::random_device` member `rd_` (annealing.h:83), whose draw differs
between the two runs (0 versus 1). -/
theorem annealing_seed_counterexample :
    emittedSeq spaceTwo 1 1 0 [] ≠ emittedSeq spaceTwo 1 1 1 [] := by
  decide

/-- Claim C1, amended: the constructor takes no seed option; all random
draws of the searcher come from the single PRNG seeded from the
random-device draw taken at construction, so the emitted sequence is
reproducible exactly when that device draw (together with the space, the
options and the reported costs) is fixed. -/
theorem annealing_deterministic_for_fixed_device_draw (space : List Configuration)
    (fraction max_temperature : ℚ) (r1 r2 : Nat) (costs : List ℚ)
    (h : r1 = r2) :
    emittedSeq space fraction max_temperature r1 costs =
      emittedSeq space fraction max_temperature r2 costs := by
  rw [h]

/-- Witness for the amended claim C1 at a concrete input. -/
theorem annealing_deterministic_for_fixed_device_draw_witness :
    (0 : Nat) = 0 ∧
    emittedSeq spaceTwo 1 1 0 [] = emittedSeq spaceTwo 1 1 0 [] :=
  ⟨rfl, annealing_deterministic_for_fixed_device_draw spaceTwo 1 1 0 0 [] rfl⟩

/-- Claim C2: for temperature T > 0 the annealing acceptance probability is
1 when the energy difference ΔE = E − E_c is negative, and exp(−ΔE/T)
otherwise. -/
theorem AcceptanceProbability_metropolis (current_energy neighbour_energy temperature : ℝ)
    (_hT : 0 < temperature) :
    (neighbour_energy - current_energy < 0 →
      AcceptanceProbability current_energy neighbour_energy temperature = 1) ∧
    (0 ≤ neighbour_energy - current_energy →
      AcceptanceProbability current_energy neighbour_energy temperature =
        Real.exp (-(neighbour_energy - current_energy) / temperature)) := by
  constructor
  · intro h
    rw [AcceptanceProbability, if_pos h]
  · intro h
    rw [AcceptanceProbability, if_neg (not_lt.mpr h)]

/-- Witness for claim C2 at a concrete input. -/
theorem AcceptanceProbability_metropolis_witness :
    (0 : ℝ) < 1 ∧
    (((1 : ℝ) - 2 < 0 → AcceptanceProbability 2 1 1 = 1) ∧
     (0 ≤ (1 : ℝ) - 2 → AcceptanceProbability 2 1 1 = Real.exp (-((1 : ℝ) - 2) / 1))) :=
  ⟨by norm_num, AcceptanceProbability_metropolis 2 1 1 (by norm_num)⟩

/-- Claim C4: `GetNeighboursOf` returns exactly the indices of the space
whose configurations differ from the reference configuration in exactly one
parameter, and a live step whose candidate current states have empty
neighbourhoods terminates the searcher. -/
theorem GetNeighboursOf_hamming (space : List Configuration) (reference_id : Nat)
    (budget : Nat) (σ : AnnealingState) (E : ℚ)
    (h0 : σ.finished = false)
    (h1 : GetNeighboursOf space σ.current_state = [])
    (h2 : GetNeighboursOf space σ.neighbour_state = []) :
    (∀ i, i ∈ GetNeighboursOf space reference_id ↔
      i < space.length ∧
      configDiffCount (space.getD i []) (space.getD reference_id []) = 1) ∧
    (CalculateNextIndex space budget σ E).finished = true := by
  constructor
  · intro i
    exact mem_GetNeighboursOf
  · obtain ⟨c2, Ec2, s1, g1, hc2, heq⟩ := calc_is_stepCore space budget σ E h0
    rw [heq, stepCore_eq]
    have hnil : GetNeighboursOf space c2 = [] := by
      rcases hc2 with rfl | rfl
      · exact h1
      · exact h2
    rw [hnil]
    simp

/-- Witness for claim C4 at a concrete input. -/
theorem GetNeighboursOf_hamming_witness :
    (initAnnealing 1 1 0).finished = false ∧
    GetNeighboursOf spaceSolo (initAnnealing 1 1 0).current_state = [] ∧
    GetNeighboursOf spaceSolo (initAnnealing 1 1 0).neighbour_state = [] ∧
    ((∀ i, i ∈ GetNeighboursOf spaceSolo 0 ↔
        i < spaceSolo.length ∧
        configDiffCount (spaceSolo.getD i []) (spaceSolo.getD 0 []) = 1) ∧
     (CalculateNextIndex spaceSolo 1 (initAnnealing 1 1 0) 1).finished = true) :=
  ⟨by decide, by decide, by decide,
   GetNeighboursOf_hamming spaceSolo 0 1 (initAnnealing 1 1 0) 1
     (by decide) (by decide) (by decide)⟩

/-- Claim C5: the budget `NumConfigurations` is the ceiling of the fraction
times the size of the space, and after a live step `done()` holds exactly
when the budget is exhausted, the stuck rule has tripped, or the current
neighbourhood is empty. -/
theorem annealing_budget_and_done (space : List Configuration) (fraction : ℚ)
    (σ : AnnealingState) (E : ℚ)
    (hf : 0 < fraction) (h0 : σ.finished = false) :
    ((NumConfigurations space fraction : ℤ) =
      Int.ceil (fraction * (space.length : ℚ))) ∧
    (isDone (NumConfigurations space fraction)
        (CalculateNextIndex space (NumConfigurations space fraction) σ E) = true ↔
      NumConfigurations space fraction
          ≤ (CalculateNextIndex space (NumConfigurations space fraction) σ E).num_visited_states ∨
      kMaxAlreadyVisitedStates
          ≤ (CalculateNextIndex space (NumConfigurations space fraction) σ
              E).num_already_visisted_states ∨
      GetNeighboursOf space
          ((CalculateNextIndex space (NumConfigurations space fraction) σ
              E).current_state) = []) := by
  constructor
  · rw [NumConfigurations]
    exact Int.toNat_of_nonneg (Int.ceil_nonneg (by positivity))
  · rw [isDone]
    simp only [Bool.or_eq_true, decide_eq_true_eq]
    rw [calc_finished_iff space _ σ E h0]
    tauto

/-- Witness for claim C5 at a concrete input. -/
theorem annealing_budget_and_done_witness :
    (0 : ℚ) < 1 ∧ (initAnnealing 2 1 0).finished = false ∧
    (((NumConfigurations spaceTwo 1 : ℤ) =
        Int.ceil ((1 : ℚ) * (spaceTwo.length : ℚ))) ∧
     (isDone (NumConfigurations spaceTwo 1)
        (CalculateNextIndex spaceTwo (NumConfigurations spaceTwo 1) (initAnnealing 2 1 0) 1)
          = true ↔
      NumConfigurations spaceTwo 1
          ≤ (CalculateNextIndex spaceTwo (NumConfigurations spaceTwo 1) (initAnnealing 2 1 0)
              1).num_visited_states ∨
      kMaxAlreadyVisitedStates
          ≤ (CalculateNextIndex spaceTwo (NumConfigurations spaceTwo 1) (initAnnealing 2 1 0)
              1).num_already_visisted_states ∨
      GetNeighboursOf spaceTwo
          ((CalculateNextIndex spaceTwo (NumConfigurations spaceTwo 1) (initAnnealing 2 1 0)
              1).current_state) = [])) :=
  ⟨by norm_num, by decide,
   annealing_budget_and_done spaceTwo 1 (initAnnealing 2 1 0) 1 (by norm_num) (by decide)⟩

/-- Claim C6: every configuration the searcher hands out over every step of
every run — the initial state and every state its trace passes through —
belongs to the enumerated space it was constructed over. -/
theorem annealing_configurations_in_space (space : List Configuration) (fraction : ℚ)
    (max_temperature : ℚ) (rdDraw : Nat) (costs : List ℚ)
    (h : space ≠ []) :
    ∀ σ ∈ initAnnealing space.length max_temperature rdDraw ::
        annealTrace space (NumConfigurations space fraction)
          (initAnnealing space.length max_temperature rdDraw) costs,
      GetConfiguration space σ ∈ space := by
  have hN : 0 < space.length := List.length_pos.mpr h
  have hinit : (initAnnealing space.length max_temperature rdDraw).neighbour_state
      < space.length := by
    show lcgNext rdDraw % space.length < space.length
    exact Nat.mod_lt _ hN
  intro σ hσ
  have hlt : σ.neighbour_state < space.length := by
    rcases List.mem_cons.mp hσ with rfl | hmem
    · exact hinit
    · exact trace_neighbour_lt space _ costs _ hinit σ hmem
  rw [GetConfiguration, List.getD_eq_getElem _ _ hlt]
  exact List.getElem_mem hlt

/-- Witness for claim C6 at a concrete input. -/
theorem annealing_configurations_in_space_witness :
    spaceTwo ≠ [] ∧
    ∀ σ ∈ initAnnealing spaceTwo.length 1 0 ::
        annealTrace spaceTwo (NumConfigurations spaceTwo 1)
          (initAnnealing spaceTwo.length 1 0) [],
      GetConfiguration spaceTwo σ ∈ spaceTwo :=
  ⟨by decide, annealing_configurations_in_space spaceTwo 1 1 0 [] (by decide)⟩

/-- Claim C7: no run of the annealing searcher ever emits the same index
twice, and a live state both of whose candidate current states have
nonempty but fully visited neighbourhoods — a forced repeat — trips the
stuck counter rule deterministically: the counter lands on the bound and
the searcher finishes. -/
theorem annealing_no_repeat_emissions (space : List Configuration) (fraction : ℚ)
    (max_temperature : ℚ) (rdDraw : Nat) (costs : List ℚ)
    (budget : Nat) (σ : AnnealingState) (E : ℚ)
    (h0 : σ.finished = false)
    (hne1 : GetNeighboursOf space σ.current_state ≠ [])
    (hne2 : GetNeighboursOf space σ.neighbour_state ≠ [])
    (hall1 : ∀ m ∈ GetNeighboursOf space σ.current_state, m ∈ σ.visited)
    (hall2 : ∀ m ∈ GetNeighboursOf space σ.neighbour_state, m ∈ σ.visited) :
    (emittedSeq space fraction max_temperature rdDraw costs).Nodup ∧
    (CalculateNextIndex space budget σ E).finished = true ∧
    (CalculateNextIndex space budget σ E).num_already_visisted_states
      = kMaxAlreadyVisitedStates := by
  refine ⟨?_, calc_stuck space budget σ E h0 hne1 hne2 hall1 hall2⟩
  show ((initAnnealing space.length max_temperature rdDraw).neighbour_state ::
    runAnnealing space (NumConfigurations space fraction)
      (initAnnealing space.length max_temperature rdDraw) costs).Nodup
  rcases run_nodup space (NumConfigurations space fraction) costs
      (initAnnealing space.length max_temperature rdDraw) with ⟨havoid, hnodup⟩
  refine List.Nodup.cons ?_ hnodup
  intro hcontra
  apply havoid _ hcontra
  exact List.mem_cons_self _ _

/-- Witness for claim C7 at a concrete input. -/
theorem annealing_no_repeat_emissions_witness :
    stuckStateTwo.finished = false ∧
    GetNeighboursOf spaceTwo stuckStateTwo.current_state ≠ [] ∧
    GetNeighboursOf spaceTwo stuckStateTwo.neighbour_state ≠ [] ∧
    (∀ m ∈ GetNeighboursOf spaceTwo stuckStateTwo.current_state, m ∈ stuckStateTwo.visited) ∧
    (∀ m ∈ GetNeighboursOf spaceTwo stuckStateTwo.neighbour_state, m ∈ stuckStateTwo.visited) ∧
    ((emittedSeq spaceTwo 1 1 0 []).Nodup ∧
     (CalculateNextIndex spaceTwo 1 stuckStateTwo 2).finished = true ∧
     (CalculateNextIndex spaceTwo 1 stuckStateTwo 2).num_already_visisted_states
       = kMaxAlreadyVisitedStates) :=
  ⟨by decide, by decide, by decide, by decide, by decide,
   annealing_no_repeat_emissions spaceTwo 1 1 0 [] 1 stuckStateTwo 2
     (by decide) (by decide) (by decide) (by decide) (by decide)⟩

/-- Claim C8: after every reported cost a live step updates the temperature
by exactly one linear cooling step `T ← T · (1 − 1/budget())` clamped below
by a small positive epsilon, the temperature never drops under that epsilon,
and the schedule starts from the user-supplied maximum temperature. -/
theorem annealing_linear_cooling (space : List Configuration) (budget N : Nat)
    (σ : AnnealingState) (E : ℚ) (max_temperature : ℚ) (rdDraw : Nat)
    (h0 : σ.finished = false) :
    (CalculateNextIndex space budget σ E).temperature =
      max annealEpsilon (σ.temperature * (1 - 1 / (budget : ℚ))) ∧
    annealEpsilon ≤ (CalculateNextIndex space budget σ E).temperature ∧
    (initAnnealing N max_temperature rdDraw).temperature = max_temperature := by
  have h := calc_temperature space budget σ E h0
  rw [coolStep_eq_max] at h
  refine ⟨h, ?_, rfl⟩
  rw [h]
  exact le_max_left _ _

/-- Witness for claim C8 at a concrete input. -/
theorem annealing_linear_cooling_witness :
    (initAnnealing 2 1 0).finished = false ∧
    ((CalculateNextIndex spaceTwo 2 (initAnnealing 2 1 0) 1).temperature =
      max annealEpsilon ((initAnnealing 2 1 0).temperature * (1 - 1 / (2 : ℚ))) ∧
     annealEpsilon ≤ (CalculateNextIndex spaceTwo 2 (initAnnealing 2 1 0) 1).temperature ∧
     (initAnnealing 2 1 0).temperature = 1) :=
  ⟨by decide, annealing_linear_cooling spaceTwo 2 2 (initAnnealing 2 1 0) 1 1 0 (by decide)⟩

/-- Claim C9: `Kernel::ValidLocalMemory` returns true exactly when the
kernel's local-memory usage reported for the device is at most the device's
local-memory size. -/
theorem ValidLocalMemory_iff (cl : OpenCLOracle) (k : Kernel) (d : Device) :
    Kernel.ValidLocalMemory cl k d = true ↔
      cl.kernelWorkGroupInfo k.id d.id CL_KERNEL_LOCAL_MEM_SIZE ≤
        cl.deviceInfo d.id CL_DEVICE_LOCAL_MEM_SIZE := by
  rw [Kernel.ValidLocalMemory, decide_eq_true_eq]
  rfl

/-- Claim C10: every command queue built by the wrapper's constructor is
created with CL_QUEUE_PROFILING_ENABLE, so the profiling start and end
timestamps of an event recorded on such a queue are always available. -/
theorem commandQueue_profiling_enabled (context device : Nat) (e : Event)
    (h : e.queueProperties = (CommandQueue.create context device).properties) :
    Event.profilingAvailable e = true ∧
    Event.GetProfilingStart e = e.startTime ∧
    Event.GetProfilingEnd e = e.endTime := by
  have hav : Event.profilingAvailable e = true := by
    rw [Event.profilingAvailable, h]
    simp [CommandQueue.create, CL_QUEUE_PROFILING_ENABLE]
  refine ⟨hav, ?_, ?_⟩
  · rw [Event.GetProfilingStart, if_pos hav]
  · rw [Event.GetProfilingEnd, if_pos hav]

/-- Claim C3: in every run of the annealing searcher, any traced state whose
successive already-visited counter has reached `kMaxAlreadyVisitedStates`
(10) has terminated: its finished flag is set, `done()` holds, and no
further index is emitted for any further reports.  The termination is an
ordinary final state of the step function, not an error. -/
theorem annealing_stuck_terminates (space : List Configuration) (budget : Nat)
    (max_temperature : ℚ) (rdDraw : Nat) (costs : List ℚ) (σ : AnnealingState)
    (h1 : σ ∈ annealTrace space budget
        (initAnnealing space.length max_temperature rdDraw) costs)
    (h2 : kMaxAlreadyVisitedStates ≤ σ.num_already_visisted_states) :
    σ.finished = true ∧
    isDone budget σ = true ∧
    ∀ cs, runAnnealing space budget σ cs = [] := by
  have hfin : σ.finished = true := by
    refine trace_stuckOK space budget costs _ ?_ σ h1 h2
    intro hk
    exact absurd (show (10 : Nat) ≤ 0 from hk) (by omega)
  rcases run_of_finished space budget σ hfin with ⟨hd, hr⟩
  exact ⟨hfin, hd, hr⟩

/-- In the island run the accepted second report leads to an acceptance test
that certainly succeeds: the energy went down, so the acceptance probability
is 1 and any probability draw lies strictly below it. -/
lemma island_accept :
    acceptB 2 1 islandState1.temperature (probOf (lcgNext islandState1.generator)) = true := by
  have hgen : islandState1.generator = 282475249 := by decide
  rw [hgen]
  have hcond : ((probOf (lcgNext 282475249) : ℚ) : ℝ) <
      AcceptanceProbability ((2 : ℚ) : ℝ) ((1 : ℚ) : ℝ) ((islandState1.temperature : ℚ) : ℝ) := by
    rw [AcceptanceProbability,
      if_pos (show ((1 : ℚ) : ℝ) - ((2 : ℚ) : ℝ) < 0 by push_cast; norm_num)]
    have hp : probOf (lcgNext 282475249) < 1 := by
      rw [probOf, lcgNext]
      norm_num
    exact_mod_cast hp
  rw [acceptB, if_pos hcond]

/-- The island run's second step resolved: the acceptance test succeeds. -/
lemma islandState2_eq :
    islandState2 = stepMain spaceIsland 4 islandState1 1 2 true := by
  have h := calc_main spaceIsland 4 islandState1 1 2
    (by decide) (by decide)
  rw [island_accept] at h
  exact h

/-- The island run's second state has a stuck counter at the bound. -/
lemma islandState2_stuck :
    kMaxAlreadyVisitedStates ≤ islandState2.num_already_visisted_states := by
  rw [islandState2_eq]
  decide

/-- The island run's second state lies on the trace of the run. -/
lemma islandState2_mem :
    islandState2 ∈ annealTrace spaceIsland 4
      (initAnnealing spaceIsland.length 1 1) [2, 1] := by
  have d0 : isDone 4 (initAnnealing spaceIsland.length 1 1) = false := by decide
  have d1 : isDone 4 islandState1 = false := by decide
  simp only [annealTrace]
  rw [show CalculateNextIndex spaceIsland 4
        (initAnnealing spaceIsland.length 1 1) 2 = islandState1 from rfl]
  rw [show CalculateNextIndex spaceIsland 4 islandState1 1
        = islandState2 from rfl]
  rw [d0, d1]
  simp only [Bool.false_eq_true, if_false]
  exact List.mem_cons_of_mem _ (List.mem_cons_self _ _)

/-- Witness for claim C3 at a concrete input: the island run gets stuck
after its second report. -/
theorem annealing_stuck_terminates_witness :
    islandState2 ∈ annealTrace spaceIsland 4
        (initAnnealing spaceIsland.length 1 1) [2, 1] ∧
    kMaxAlreadyVisitedStates ≤ islandState2.num_already_visisted_states ∧
    (islandState2.finished = true ∧
     isDone 4 islandState2 = true ∧
     ∀ cs, runAnnealing spaceIsland 4 islandState2 cs = []) :=
  ⟨islandState2_mem, islandState2_stuck,
   annealing_stuck_terminates spaceIsland 4 1 1 [2, 1] islandState2
     islandState2_mem islandState2_stuck⟩

/-- Witness for claim C10 at a concrete input. -/
theorem commandQueue_profiling_enabled_witness :
    ({ queueProperties := 2, startTime := 5, endTime := 9 } : Event).queueProperties =
      (CommandQueue.create 0 0).properties ∧
    (Event.profilingAvailable { queueProperties := 2, startTime := 5, endTime := 9 } = true ∧
     Event.GetProfilingStart { queueProperties := 2, startTime := 5, endTime := 9 } =
       ({ queueProperties := 2, startTime := 5, endTime := 9 } : Event).startTime ∧
     Event.GetProfilingEnd { queueProperties := 2, startTime := 5, endTime := 9 } =
       ({ queueProperties := 2, startTime := 5, endTime := 9 } : Event).endTime) :=
  ⟨rfl, commandQueue_profiling_enabled 0 0 { queueProperties := 2, startTime := 5, endTime := 9 }
    rfl⟩

end CLTune
